import Mathlib

/-!
Shallow embedding of the message-context core of `src/main.py` (a LINE
chat-bot webhook service), together with proofs checking the repository's
specification claims against it.

Modelling conventions:
* Python strings are sequences of Unicode code points; they are modelled as
  `List Char` (abbreviated `Txt`).  Python slicing `s[:i]`, `s[i:]` is
  `List.take` / `List.drop` by code point, exactly as in Python.
  `str.strip()` is modelled by `trimChars` (drop whitespace at both ends).
* The global `message_cache : OrderedDict` is modelled as an association
  list in insertion order (head = oldest inserted).  Assignment to a key
  already present overwrites the value in place without reordering, and
  `popitem(last=False)` removes the head — both are `OrderedDict` semantics.
* External collaborators (OpenAI model calls, URL detection, token
  validation) are oracles supplied in an `Env` record; a call that the
  source observes as `(is_successful, response, error_message)` is an
  `Except` value.
* Exceptions are modelled by the control flow they produce: each branch of
  the `try` block of `handle_text_message` is translated together with the
  `except` clause that would catch what it raises.
-/

set_option maxRecDepth 20000

abbrev Txt := List Char

/-! ### Message cache — `src/main.py` lines 22-25 and 58-62 -/

/-- `MAX_CACHE_SIZE = 1000` (line 23). -/
def MAX_CACHE_SIZE : Nat := 1000

/-- The keys of the cache in insertion order (head = oldest inserted). -/
def cacheKeys {α β : Type} (c : List (α × β)) : List α := c.map Prod.fst

/-- `save_message_to_cache(message_id, text)` (lines 58-62):
if `len(message_cache) >= MAX_CACHE_SIZE` the oldest entry is popped
(`popitem(last=False)`), then `message_cache[message_id] = text` either
overwrites an existing key in place or appends a fresh key at the end. -/
def save_message_to_cache {α β : Type} [DecidableEq α]
    (c : List (α × β)) (id : α) (text : β) : List (α × β) :=
  let c1 := if MAX_CACHE_SIZE ≤ c.length then c.drop 1 else c
  if id ∈ cacheKeys c1 then
    c1.map (fun p => if p.1 = id then (p.1, text) else p)
  else
    c1 ++ [(id, text)]

/-- `message_cache.get(id)` — first value stored under `id`, if any. -/
def cacheGet {α β : Type} [DecidableEq α] (c : List (α × β)) (id : α) : Option β :=
  (c.find? (fun p => decide (p.1 = id))).map Prod.snd

/-! ### Inbound event shape (the fields of a LINE SDK event that
`src/main.py` reads, duck-typed via `getattr` in the source) -/

/-- `event.message.reference`: the inline reply-reference object.  The
Python SDK normalizes the wire field `messageId` to `message_id`
(comment at line 88); the source reads both attributes. -/
structure Reference where
  message_id : Option String
  messageId : Option String
deriving DecidableEq

/-- One entry of `event.message.mention.mentionees`. -/
structure Mentionee where
  user_id : String
  index : Nat
  length : Nat
deriving DecidableEq

structure Mention where
  mentionees : List Mentionee
deriving DecidableEq

structure MessageObj where
  text : Txt
  mention : Option Mention
  reference : Option Reference
deriving DecidableEq

/-- `event.source`: `type` is `"user"`, `"group"` or `"room"`. -/
structure Source where
  type : String
  user_id : String
deriving DecidableEq

structure Event where
  source : Source
  message : MessageObj
deriving DecidableEq

/-! ### Admission filter — `should_process_message` (lines 65-78) -/

/-- `should_process_message(event, text)` (lines 65-78).  `BOT_USER_ID`
(the env var read at line 40) is passed explicitly as `botId`. -/
def should_process_message (botId : String) (e : Event) (text : Txt) : Bool :=
  if e.source.type = "user" then true
  else if e.source.type = "group" ∨ e.source.type = "room" then
    if ("/".data).isPrefixOf text then true
    else
      match e.message.mention with
      | some mention =>
          if mention.mentionees.isEmpty then false
          else mention.mentionees.any (fun m => decide (m.user_id = botId))
      | none => false
  else false

/-! ### Quote resolver — `get_replied_message_text` (lines 81-99) -/

/-- Python `a or b` over the two optional id attributes: `None` and the
empty string are falsy. -/
def pyOrStr (a b : Option String) : Option String :=
  match a with
  | some s => if s = "" then b else some s
  | none => b

/-- `get_replied_message_text(event)` (lines 81-99): if the message has a
reference object, read `message_id` (SDK-normalized form) falling back to
`messageId` (raw form) via Python `or`; if the resulting id is falsy
return `None`, else return `message_cache.get(replied_id)`. -/
def get_replied_message_text (cache : List (String × Txt)) (e : Event) : Option Txt :=
  match e.message.reference with
  | none => none
  | some ref =>
    match pyOrStr ref.message_id ref.messageId with
    | some rid => if rid = "" then none else cacheGet cache rid
    | none => none

/-! ### Mention stripping — `remove_bot_mention` (lines 102-112) -/

/-- `str.strip()`: remove leading and trailing whitespace. -/
def trimChars (t : Txt) : Txt :=
  ((t.dropWhile Char.isWhitespace).reverse.dropWhile Char.isWhitespace).reverse

/-- `text[:i] + text[i+l:]` (line 110). -/
def removeSpan (t : Txt) (i l : Nat) : Txt := t.take i ++ t.drop (i + l)

/-- The comparison used at line 107: `sorted(..., key=lambda x: x.index,
reverse=True)`, i.e. a stable sort into descending index order. -/
def mentionSortLe (a b : Mentionee) : Bool := decide (b.index ≤ a.index)

/-- `remove_bot_mention(event, text)` (lines 102-112): when a mention with
a non-empty mentionee list is present, sort all mentionees by descending
index, cut out the span of every mentionee whose `user_id` equals the
bot's id, and strip the result; otherwise return the text unchanged. -/
def remove_bot_mention (botId : String) (mention : Option Mention) (text : Txt) : Txt :=
  match mention with
  | some mn =>
    if mn.mentionees.isEmpty then text
    else
      let sorted_mentions := mn.mentionees.mergeSort mentionSortLe
      let cut := sorted_mentions.foldl
        (fun t m => if m.user_id = botId then removeSpan t m.index m.length else t) text
      trimChars cut
  | none => text

/-! Specification-side vocabulary for the mention-stripping claims:
position filtering by index. -/

/-- Keep the characters of `t` whose absolute position (starting at `n`)
satisfies `p`. -/
def keepFrom (p : Nat → Bool) : Txt → Nat → Txt
  | [], _ => []
  | c :: cs, n => if p n then c :: keepFrom p cs (n + 1) else keepFrom p cs (n + 1)

/-- Keep the characters of `t` at positions satisfying `p`. -/
def keepIdx (p : Nat → Bool) (t : Txt) : Txt := keepFrom p t 0

/-- `j` lies inside the span of some mentionee in `ms`. -/
def coveredBy (ms : List Mentionee) (j : Nat) : Bool :=
  ms.any (fun m => decide (m.index ≤ j) && decide (j < m.index + m.length))

/-- `j` lies inside the span of a mentionee of `ms` whose identity is the
bot's. -/
def coversBot (botId : String) (ms : List Mentionee) (j : Nat) : Bool :=
  coveredBy (ms.filter (fun m => decide (m.user_id = botId))) j

/-- Two mention spans are disjoint. -/
def spanDisj (a b : Mentionee) : Prop :=
  a.index + a.length ≤ b.index ∨ b.index + b.length ≤ a.index

instance : DecidableRel spanDisj := fun a b =>
  inferInstanceAs (Decidable (a.index + a.length ≤ b.index ∨ b.index + b.length ≤ a.index))

/-! ### Batch ingestion — `auto_cache_text_messages` (lines 43-55) -/

/-- The fields of one decoded JSON event that ingestion reads.  A `none`
field models an absent key: `event.get('type')` and `msg.get('type')`
yield `None` silently, while `event['message']`, `msg['id']`, `msg['text']`
raise `KeyError` when absent. -/
structure RawMessage where
  rtype : Option String
  id : Option String
  text : Option Txt
deriving DecidableEq

structure RawEvent where
  etype : Option String
  message : Option RawMessage
deriving DecidableEq

/-- One iteration of the ingestion loop (lines 48-53): returns the updated
cache, or `Except.error` when the Python body would raise (`KeyError` on a
missing `message`, `id` or `text` key of a message-typed event). -/
def cache_step (c : List (String × Txt)) (e : RawEvent) :
    Except Unit (List (String × Txt)) :=
  if e.etype = some "message" then
    match e.message with
    | none => .error ()
    | some m =>
      if m.rtype = some "text" then
        match m.id, m.text with
        | some mid, some t => .ok (save_message_to_cache c mid (trimChars t))
        | _, _ => .error ()
      else .ok c
  else .ok c

/-- `auto_cache_text_messages(body)` (lines 43-55).  The `try` wraps the
whole loop: the first event whose processing raises aborts the loop, the
exception is logged and swallowed, and the cache built so far is kept. -/
def auto_cache_text_messages (c : List (String × Txt)) :
    List RawEvent → List (String × Txt)
  | [] => c
  | e :: es =>
    match cache_step c e with
    | .ok c2 => auto_cache_text_messages c2 es
    | .error _ => c

/-- Whether one ingestion step succeeds; this depends only on the shape of
the event, not on the cache. -/
def cache_step_ok (e : RawEvent) : Bool :=
  if e.etype = some "message" then
    match e.message with
    | none => false
    | some m => if m.rtype = some "text" then m.id.isSome && m.text.isSome else true
  else true

/-! ### Session and command router — `handle_text_message` (lines 130-211) -/

/-- The operations `handle_text_message` performs on the calling user's
`Memory` object (the `memory.append` / `memory.remove` /
`memory.change_system_message` call sites of lines 165, 169, 174, 180,
184, 196, 203). -/
inductive MemOp where
  | append (role : String) (content : Txt)
  | remove
  | changeSystem (s : Txt)
deriving DecidableEq

/-- The single outbound reply built by the handler (`TextSendMessage` or
`ImageSendMessage`). -/
inductive Reply where
  | text (s : Txt)
  | image (url : Txt)
deriving DecidableEq

/-- Oracles for the external collaborators called inside the `try` block.
`registered` models `user_id ∈ model_management`; the `Except` results
model the `(is_successful, response, error_message)` triples, with the
payload already reduced to what the handler uses (the image URL, or the
`(role, content)` extracted by `get_role_and_content`). -/
structure Env where
  check_token_valid : Txt → Bool
  image_generations : Txt → Except Txt Txt
  chat_completions : Txt → Except Txt (String × Txt)
  get_url_from_text : Txt → Option Txt
  registered : Bool

/-- Message selection of the generic `except Exception` clause
(lines 202-209); the `memory.remove` it also performs is recorded by the
caller. -/
def generic_error_msg (e : Txt) : Txt :=
  if ("Incorrect API key provided".data).isPrefixOf e then
    "OpenAI API Token 有誤，請重新註冊。".data
  else if ("That model is currently overloaded".data).isPrefixOf e then
    "已超過負荷，請稍後再試".data
  else e

/-- The command dispatch: the `try` block of lines 150-196 together with
the `except` clauses of lines 198-209, as a function from the routed text
to the memory-operation trace and the reply.

Branch-by-branch correspondence with the source:
* `/註冊` (151-159): validate the token; `ValueError` on an invalid token
  is caught at 198.  Neither path touches memory.
* `/指令說明` (161-162): static usage text.
* `/系統訊息` (164-166): `memory.change_system_message(user_id, text[5:].strip())`.
* `/清除` (168-170): `memory.remove(user_id)`.
* `/圖像` (172-180): `memory.append('user', prompt)` happens *before* the
  `model_management[user_id]` lookup, so an unregistered user leaves the
  dangling user turn behind the `KeyError` caught at 200; a backend error
  raises `Exception` which is caught at 202 (`memory.remove` then an error
  text).
* default (182-196): the `model_management[user_id]` lookup precedes the
  user-turn append, so the unregistered `KeyError` appends nothing.  When
  a URL is detected, the source's elided body (lines 186-188 are only a
  comment) leaves the local `response` unassigned and line 189 raises
  `UnboundLocalError` (its `str(e)` is the reply text), caught at 202.
  Otherwise
  the chat completion either succeeds (append the returned role/content,
  reply with the content) or raises `Exception`, caught at 202. -/
def dispatch (env : Env) (text : Txt) : List MemOp × Reply :=
  if ("/註冊".data).isPrefixOf text then
    let api_key := trimChars (text.drop 3)
    if env.check_token_valid api_key then
      ([], .text "Token 有效，註冊成功".data)
    else
      ([], .text "Token 無效，請重新註冊，格式為 /註冊 sk-xxxxx".data)
  else if ("/指令說明".data).isPrefixOf text then
    ([], .text "指令：\n/註冊 + API Token\n...".data)
  else if ("/系統訊息".data).isPrefixOf text then
    ([.changeSystem (trimChars (text.drop 5))], .text "輸入成功".data)
  else if ("/清除".data).isPrefixOf text then
    ([.remove], .text "歷史訊息清除成功".data)
  else if ("/圖像".data).isPrefixOf text then
    let prompt := trimChars (text.drop 3)
    if env.registered then
      match env.image_generations prompt with
      | .ok url => ([.append "user" prompt, .append "assistant" url], .image url)
      | .error e => ([.append "user" prompt, .remove], .text (generic_error_msg e))
    else
      ([.append "user" prompt], .text "請先註冊 Token，格式為 /註冊 sk-xxxxx".data)
  else
    if env.registered then
      match env.get_url_from_text text with
      | some _ =>
          ([.append "user" text, .remove],
            .text "cannot access local variable 'response' where it is not associated with a value".data)
      | none =>
        match env.chat_completions text with
        | .ok (role, content) =>
            ([.append "user" text, .append role content], .text content)
        | .error e => ([.append "user" text, .remove], .text (generic_error_msg e))
    else
      ([], .text "請先註冊 Token，格式為 /註冊 sk-xxxxx".data)

/-- Lines 133-148: strip the raw text, resolve the quoted parent, strip
the bot mention, and merge the quoted text when it is truthy
(`if replied_text:` — `None` and the empty string skip the merge). -/
def router_text (botId : String) (cache : List (String × Txt)) (e : Event) : Txt :=
  let text0 := trimChars e.message.text
  let text1 := remove_bot_mention botId e.message.mention text0
  match get_replied_message_text cache e with
  | some r =>
      if r = [] then text1
      else "針對這段話回應：".data ++ r ++ "\n使用者補充說：".data ++ text1
  | none => text1

/-- The full result of one `handle_text_message` invocation. -/
structure HandlerResult where
  ops : List MemOp
  reply : Reply
deriving DecidableEq

/-- `handle_text_message(event)` (lines 130-211): non-admitted events get
the fixed `尚未註冊` notice and nothing else (lines 137-141); admitted
events go through mention stripping, quote merging and the dispatch. -/
def handle_text_message (env : Env) (botId : String)
    (cache : List (String × Txt)) (e : Event) : HandlerResult :=
  let text0 := trimChars e.message.text
  if should_process_message botId e text0 then
    let p := dispatch env (router_text botId cache e)
    ⟨p.1, p.2⟩
  else
    ⟨[], .text "尚未註冊".data⟩

/-! ### Conversational memory (spec-modelled) -/

/-- Modelled from the spec: the `Memory` class is imported from
`src.memory`, which is not included under `src/`.  Per spec §3 and §4.6 a
memory holds a system message and an ordered sequence of `(role, content)`
turns, bounded to `maxTurns` most-recent exchanges (one exchange = two
turns), trimmed from the oldest end. -/
structure MemState where
  systemMessage : Txt
  turns : List (String × Txt)
deriving DecidableEq

/-- Modelled from the spec: the exchange-window trimming of
`Memory.append` (§4.6) — drop oldest turns until at most `2 * maxTurns`
remain. -/
def trimExchanges (maxTurns : Nat) (turns : List (String × Txt)) : List (String × Txt) :=
  if 2 * maxTurns < turns.length then turns.drop (turns.length - 2 * maxTurns) else turns

/-- Modelled from the spec: the effect of each `Memory` method used by the
router (§4.6 — `append` adds one turn then trims, `remove`/`clear` resets
the turns to empty, `change_system_message` replaces the system message
and leaves the turns alone). -/
def memApply (maxTurns : Nat) (st : MemState) : MemOp → MemState
  | .append role content =>
      { st with turns := trimExchanges maxTurns (st.turns ++ [(role, content)]) }
  | .remove => { st with turns := [] }
  | .changeSystem s => { st with systemMessage := s }

/-- Apply a trace of memory operations in order. -/
def memApplyAll (maxTurns : Nat) (st : MemState) (ops : List MemOp) : MemState :=
  ops.foldl (memApply maxTurns) st

/-! ### Concrete caches used by the capacity claims -/

/-- A cache filled to capacity with the distinct ids `0, 1, …, 999`
(in insertion order), all mapped to the text `"t"`. -/
def fullCache : List (Nat × Txt) :=
  (List.range MAX_CACHE_SIZE).map (fun i => (i, "t".data))

/-! ### Concrete collaborator environments used by witnesses -/

/-- A registered user whose external collaborators all succeed. -/
def envOk : Env :=
  { check_token_valid := fun _ => true
    image_generations := fun _ => .ok "http://img".data
    chat_completions := fun _ => .ok ("assistant", "ok".data)
    get_url_from_text := fun _ => none
    registered := true }

/-- An unregistered user (`user_id ∉ model_management`). -/
def envUnreg : Env := { envOk with registered := false }

/-- A registered user whose backend calls fail with the message `boom`. -/
def envFail : Env :=
  { envOk with
    image_generations := fun _ => .error "boom".data
    chat_completions := fun _ => .error "boom".data }

/-! ## Theorems -/

/-! ### Cache lemmas -/

theorem cacheKeys_map_overwrite {α β : Type} [DecidableEq α]
    (c : List (α × β)) (id : α) (t : β) :
    cacheKeys (c.map (fun p => if p.1 = id then (p.1, t) else p)) = cacheKeys c := by
  unfold cacheKeys
  rw [List.map_map]
  apply List.map_congr_left
  intro p _
  by_cases h : p.1 = id <;> simp [h]

theorem save_length_le {α β : Type} [DecidableEq α]
    (c : List (α × β)) (id : α) (t : β) (h : c.length ≤ MAX_CACHE_SIZE) :
    (save_message_to_cache c id t).length ≤ MAX_CACHE_SIZE := by
  rcases Nat.lt_or_ge c.length MAX_CACHE_SIZE with hlt | hge
  · simp only [save_message_to_cache, if_neg (Nat.not_le.mpr hlt)]
    split
    · simpa using Nat.le_of_lt hlt
    · simp only [List.length_append, List.length_cons, List.length_nil]
      omega
  · simp only [save_message_to_cache, if_pos hge]
    split
    · simp only [List.length_map, List.length_drop]
      omega
    · simp only [List.length_append, List.length_drop, List.length_cons, List.length_nil]
      simp only [MAX_CACHE_SIZE] at h hge ⊢
      omega

theorem foldl_save_length_le {α β : Type} [DecidableEq α] :
    ∀ (ops : List (α × β)) (c : List (α × β)), c.length ≤ MAX_CACHE_SIZE →
      (ops.foldl (fun acc p => save_message_to_cache acc p.1 p.2) c).length ≤ MAX_CACHE_SIZE
  | [], _, h => h
  | _ :: ops, c, h => foldl_save_length_le ops _ (save_length_le c _ _ h)

/-- Inserting a list of fresh, pairwise-distinct ids into a cache that has
room for all of them simply appends them in order. -/
theorem foldl_save_of_fresh {α β : Type} [DecidableEq α] :
    ∀ (l : List (α × β)) (c : List (α × β)),
      (cacheKeys c ++ cacheKeys l).Nodup →
      c.length + l.length ≤ MAX_CACHE_SIZE →
      l.foldl (fun acc p => save_message_to_cache acc p.1 p.2) c = c ++ l
  | [], c, _, _ => by simp
  | (a, t) :: l, c, hnd, hlen => by
    have hlt : c.length < MAX_CACHE_SIZE := by
      simp only [List.length_cons] at hlen
      omega
    have hkeys : cacheKeys ((a, t) :: l) = a :: cacheKeys l := by
      simp [cacheKeys]
    rw [hkeys] at hnd
    have hdisj : (cacheKeys c).Disjoint (a :: cacheKeys l) :=
      List.disjoint_of_nodup_append hnd
    have hna : a ∉ cacheKeys c := fun hmem => hdisj hmem (List.mem_cons_self a _)
    have hstep : save_message_to_cache c a t = c ++ [(a, t)] := by
      simp only [save_message_to_cache, if_neg (Nat.not_le.mpr hlt)]
      rw [if_neg hna]
    rw [List.foldl_cons, hstep,
      foldl_save_of_fresh l (c ++ [(a, t)])
        (by
          have : cacheKeys (c ++ [(a, t)]) = cacheKeys c ++ [a] := by
            simp [cacheKeys]
          rw [this, List.append_assoc, List.singleton_append]
          exact hnd)
        (by
          simp only [List.length_append, List.length_cons, List.length_nil] at hlen ⊢
          omega),
      List.append_assoc, List.singleton_append]

/-- The at-capacity cache `fullCache` is reachable by a sequence of
insertions starting from the empty cache. -/
theorem fullCache_reachable :
    ((List.range MAX_CACHE_SIZE).map (fun i => (i, "t".data))).foldl
      (fun acc p => save_message_to_cache acc p.1 p.2) ([] : List (Nat × Txt)) = fullCache := by
  have hkeys : cacheKeys ((List.range MAX_CACHE_SIZE).map (fun i => (i, ("t".data : Txt))))
      = List.range MAX_CACHE_SIZE := by
    unfold cacheKeys
    rw [List.map_map]
    exact List.map_id'' (fun _ => rfl) _
  have h := foldl_save_of_fresh
    ((List.range MAX_CACHE_SIZE).map (fun i => (i, "t".data))) ([] : List (Nat × Txt))
    (by simpa [cacheKeys, hkeys] using List.nodup_range MAX_CACHE_SIZE)
    (by simp)
  rw [fullCache]
  simpa using h

/-- C1 (amended): for every sequence of insertions the cache never exceeds
`MAX_CACHE_SIZE = 1000` entries; when an insertion happens at capacity it
is the oldest-inserted entry that is evicted (pure FIFO); and overwriting
an id that is already present preserves the whole eviction order provided
the cache is below capacity — at capacity, a put evicts the head even when
the id is already present. -/
theorem C1_cache_capacity_fifo : ∀ (c : List (Nat × Txt)) (id : Nat) (t : Txt),
    (∀ ops : List (Nat × Txt),
      (ops.foldl (fun acc p => save_message_to_cache acc p.1 p.2)
        ([] : List (Nat × Txt))).length ≤ MAX_CACHE_SIZE) ∧
    (c.length ≤ MAX_CACHE_SIZE → (save_message_to_cache c id t).length ≤ MAX_CACHE_SIZE) ∧
    (∀ p rest, c = p :: rest → MAX_CACHE_SIZE ≤ c.length →
      cacheKeys (save_message_to_cache c id t) =
        if id ∈ cacheKeys rest then cacheKeys rest else cacheKeys rest ++ [id]) ∧
    (c.length < MAX_CACHE_SIZE → id ∈ cacheKeys c →
      cacheKeys (save_message_to_cache c id t) = cacheKeys c) := by
  intro c id t
  refine ⟨fun ops => foldl_save_length_le ops [] (by simp [MAX_CACHE_SIZE]),
    save_length_le c id t, ?_, ?_⟩
  · rintro p rest rfl hge
    simp only [save_message_to_cache, if_pos hge, List.drop_one, List.tail_cons]
    split
    · rw [cacheKeys_map_overwrite]
    · simp [cacheKeys]
  · intro hlt hmem
    simp only [save_message_to_cache, if_neg (Nat.not_le.mpr hlt), if_pos hmem]
    exact cacheKeys_map_overwrite c id t

/-- C1 witness: the amended statement instantiated at the reachable
at-capacity cache `fullCache` (eviction case) and at a two-entry cache
(order-preserving overwrite case). -/
theorem C1_cache_capacity_fifo_witness :
    (cacheKeys (save_message_to_cache fullCache 0 "u".data) =
      if 0 ∈ cacheKeys (fullCache.drop 1) then cacheKeys (fullCache.drop 1)
      else cacheKeys (fullCache.drop 1) ++ [0]) ∧
    (cacheKeys (save_message_to_cache [(5, "a".data), (6, "b".data)] 5 "c".data) =
      cacheKeys [(5, "a".data), (6, "b".data)]) :=
  ⟨(C1_cache_capacity_fifo fullCache 0 "u".data).2.2.1 (0, "t".data) (fullCache.drop 1)
      (by decide) (by decide),
    (C1_cache_capacity_fifo [(5, "a".data), (6, "b".data)] 5 "c".data).2.2.2
      (by decide) (by decide)⟩

/-- C1 counterexample: the claim as stated is false — after filling the
cache with the ids `0, …, 999` (a concrete reachable state at capacity),
overwriting the already-present id `0` moves it from the oldest position
(head of the eviction order) to the newest position (last). -/
theorem C1_counterexample :
    (((List.range MAX_CACHE_SIZE).map (fun i => (i, "t".data))).foldl
      (fun acc p => save_message_to_cache acc p.1 p.2) ([] : List (Nat × Txt)) = fullCache) ∧
    (cacheKeys fullCache).head? = some 0 ∧
    (cacheKeys (save_message_to_cache fullCache 0 "u".data)).head? = some 1 ∧
    (cacheKeys (save_message_to_cache fullCache 0 "u".data)).getLast? = some 0 :=
  ⟨fullCache_reachable, by decide, by decide, by decide⟩

/-- C3 (amended): a put of an id that is already present overwrites that
id's text; below capacity it evicts nothing and leaves the key sequence
unchanged.  At capacity every put — present id or not — first evicts the
oldest entry: when the present id lies among the surviving entries the
cache shrinks to 999 entries and the oldest id is gone, while when the
present id is itself the oldest the popped entry is re-inserted at the
newest position, so the cache stays at 1000 entries with the same key set
but a changed eviction order. -/
theorem C3_put_present_overwrite : ∀ (c : List (Nat × Txt)) (id : Nat) (t : Txt),
    (c.length < MAX_CACHE_SIZE → id ∈ cacheKeys c →
      save_message_to_cache c id t = c.map (fun p => if p.1 = id then (p.1, t) else p) ∧
      (save_message_to_cache c id t).length = c.length ∧
      cacheKeys (save_message_to_cache c id t) = cacheKeys c) ∧
    (MAX_CACHE_SIZE ≤ c.length → id ∈ cacheKeys (c.drop 1) →
      save_message_to_cache c id t =
        (c.drop 1).map (fun p => if p.1 = id then (p.1, t) else p) ∧
      (save_message_to_cache c id t).length = c.length - 1 ∧
      cacheKeys (save_message_to_cache c id t) = cacheKeys (c.drop 1)) ∧
    (∀ p rest, c = p :: rest → MAX_CACHE_SIZE ≤ c.length → p.1 = id →
      id ∉ cacheKeys rest →
      save_message_to_cache c id t = rest ++ [(id, t)] ∧
      (save_message_to_cache c id t).length = c.length ∧
      cacheKeys (save_message_to_cache c id t) = cacheKeys rest ++ [id]) := by
  intro c id t
  refine ⟨?_, ?_, ?_⟩
  · intro hlt hmem
    have he : save_message_to_cache c id t
        = c.map (fun p => if p.1 = id then (p.1, t) else p) := by
      simp only [save_message_to_cache, if_neg (Nat.not_le.mpr hlt), if_pos hmem]
    refine ⟨he, ?_, ?_⟩
    · rw [he, List.length_map]
    · rw [he, cacheKeys_map_overwrite]
  · intro hge hmem
    have he : save_message_to_cache c id t
        = (c.drop 1).map (fun p => if p.1 = id then (p.1, t) else p) := by
      simp only [save_message_to_cache, if_pos hge, if_pos hmem]
    refine ⟨he, ?_, ?_⟩
    · rw [he, List.length_map, List.length_drop]
    · rw [he, cacheKeys_map_overwrite]
  · rintro p rest rfl hge _ hnotin
    have he : save_message_to_cache (p :: rest) id t = rest ++ [(id, t)] := by
      simp only [save_message_to_cache, if_pos hge, List.drop_one, List.tail_cons]
      rw [if_neg hnotin]
    refine ⟨he, ?_, ?_⟩
    · rw [he]
      simp
    · rw [he]
      simp [cacheKeys]

/-- C3 witness: the amended statement instantiated at a two-entry cache
(below capacity: in-place overwrite, no eviction) and twice at the
reachable at-capacity cache `fullCache` — putting the present id `999`
(in the surviving tail) still evicts the head and shrinks the cache,
while putting the present id `0` (the oldest entry itself) keeps the
cache at 1000 entries, re-inserted at the newest position. -/
theorem C3_put_present_overwrite_witness :
    (save_message_to_cache [(5, "a".data), (6, "b".data)] 6 "c".data =
      [(5, "a".data), (6, "b".data)].map (fun p => if p.1 = 6 then (p.1, "c".data) else p)) ∧
    (save_message_to_cache fullCache 999 "u".data).length = fullCache.length - 1 ∧
    (save_message_to_cache fullCache 0 "u".data = fullCache.drop 1 ++ [(0, "u".data)] ∧
      (save_message_to_cache fullCache 0 "u".data).length = fullCache.length) :=
  ⟨((C3_put_present_overwrite [(5, "a".data), (6, "b".data)] 6 "c".data).1
      (by decide) (by decide)).1,
    ((C3_put_present_overwrite fullCache 999 "u".data).2.1 (by decide) (by decide)).2.1,
    (((C3_put_present_overwrite fullCache 0 "u".data).2.2 (0, "t".data) (fullCache.drop 1)
      (by decide) (by decide) rfl (by decide)).1),
    (((C3_put_present_overwrite fullCache 0 "u".data).2.2 (0, "t".data) (fullCache.drop 1)
      (by decide) (by decide) rfl (by decide)).2.1)⟩

/-- C3 counterexample: the claim as stated is false — at the concrete
reachable capacity-1000 cache holding the ids `0, …, 999`, putting the
already-present id `999` evicts an entry (the cache shrinks to 999
entries) and changes the set of cached ids (id `0` is gone). -/
theorem C3_counterexample :
    (((List.range MAX_CACHE_SIZE).map (fun i => (i, "t".data))).foldl
      (fun acc p => save_message_to_cache acc p.1 p.2) ([] : List (Nat × Txt)) = fullCache) ∧
    999 ∈ cacheKeys fullCache ∧
    0 ∈ cacheKeys fullCache ∧
    (save_message_to_cache fullCache 999 "u".data).length = 999 ∧
    0 ∉ cacheKeys (save_message_to_cache fullCache 999 "u".data) :=
  ⟨fullCache_reachable, by decide, by decide, by decide, by decide⟩

/-! ### Quote resolution (C2) -/

/-- C2: quote resolution returns the cached text of the parent message
regardless of which of the two reference representations the event
carries — the SDK-normalized `message_id` attribute is tried first, then
the raw `messageId` attribute of the inline reference object — and
returns `None` when the event has no reference, when neither attribute
yields a (truthy) id, or when the resolved id is not in the cache. -/
theorem C2_quote_resolution : ∀ (cache : List (String × Txt)) (e : Event),
    (e.message.reference = none → get_replied_message_text cache e = none) ∧
    (∀ r pid, e.message.reference = some r → r.message_id = some pid → pid ≠ "" →
      get_replied_message_text cache e = cacheGet cache pid) ∧
    (∀ r pid, e.message.reference = some r →
      (r.message_id = none ∨ r.message_id = some "") →
      r.messageId = some pid → pid ≠ "" →
      get_replied_message_text cache e = cacheGet cache pid) ∧
    (∀ r, e.message.reference = some r →
      (r.message_id = none ∨ r.message_id = some "") →
      (r.messageId = none ∨ r.messageId = some "") →
      get_replied_message_text cache e = none) ∧
    (∀ pid, pid ∉ cacheKeys cache → cacheGet cache pid = none) := by
  intro cache e
  refine ⟨?_, ?_, ?_, ?_, ?_⟩
  · intro h
    simp [get_replied_message_text, h]
  · intro r pid href hmid hne
    simp [get_replied_message_text, href, pyOrStr, hmid, hne]
  · intro r pid href hmid hcamel hne
    rcases hmid with hmid | hmid <;>
      simp [get_replied_message_text, href, pyOrStr, hmid, hcamel, hne]
  · intro r href hmid hcamel
    rcases hmid with hmid | hmid <;> rcases hcamel with hcamel | hcamel <;>
      simp [get_replied_message_text, href, pyOrStr, hmid, hcamel]
  · intro pid hmem
    unfold cacheGet
    rw [List.find?_eq_none.mpr, Option.map_none']
    intro p hp
    simp only [decide_eq_true_eq]
    intro hfst
    exact hmem (hfst ▸ List.mem_map_of_mem Prod.fst hp)

/-- C2 witness: the resolver evaluated on one concrete cache and the four
concrete reference shapes (no reference; snake_case id; camelCase id with
falsy snake_case id; both falsy), plus a lookup of an uncached id. -/
theorem C2_quote_resolution_witness :
    (get_replied_message_text [("p", "hi".data)]
      ⟨⟨"user", "U"⟩, ⟨"x".data, none, none⟩⟩ = none) ∧
    (get_replied_message_text [("p", "hi".data)]
      ⟨⟨"user", "U"⟩, ⟨"x".data, none, some ⟨some "p", none⟩⟩⟩ =
        cacheGet [("p", "hi".data)] "p") ∧
    (get_replied_message_text [("p", "hi".data)]
      ⟨⟨"user", "U"⟩, ⟨"x".data, none, some ⟨none, some "p"⟩⟩⟩ =
        cacheGet [("p", "hi".data)] "p") ∧
    (get_replied_message_text [("p", "hi".data)]
      ⟨⟨"user", "U"⟩, ⟨"x".data, none, some ⟨none, some ""⟩⟩⟩ = none) ∧
    cacheGet [("p", "hi".data)] "q" = none :=
  ⟨(C2_quote_resolution [("p", "hi".data)] _).1 rfl,
    (C2_quote_resolution [("p", "hi".data)] _).2.1 ⟨some "p", none⟩ "p" rfl rfl (by decide),
    (C2_quote_resolution [("p", "hi".data)] _).2.2.1 ⟨none, some "p"⟩ "p" rfl (Or.inl rfl)
      rfl (by decide),
    (C2_quote_resolution [("p", "hi".data)] _).2.2.2.1 ⟨none, some ""⟩ rfl (Or.inl rfl)
      (Or.inr rfl),
    (C2_quote_resolution [("p", "hi".data)]
      ⟨⟨"user", "U"⟩, ⟨"x".data, none, none⟩⟩).2.2.2.2 "q" (by decide)⟩

/-! ### Admission filter (C4) -/

/-- C4: every direct-conversation event is admitted; a group/room event is
admitted iff its text begins with `/` or it carries a mention whose target
identity equals the bot's own identity. -/
theorem C4_admission : ∀ (botId : String) (e : Event) (text : Txt),
    (e.source.type = "user" → should_process_message botId e text = true) ∧
    ((e.source.type = "group" ∨ e.source.type = "room") →
      (should_process_message botId e text = true ↔
        ("/".data).isPrefixOf text = true ∨
        ∃ mn, e.message.mention = some mn ∧ ∃ m ∈ mn.mentionees, m.user_id = botId)) := by
  intro botId e text
  constructor
  · intro h
    simp [should_process_message, h]
  · intro hg
    have hne : ¬ e.source.type = "user" := by
      rcases hg with h | h <;> rw [h] <;> decide
    unfold should_process_message
    rw [if_neg hne, if_pos hg]
    cases hp : ("/".data).isPrefixOf text
    · rcases hmn : e.message.mention with _ | mn
      · simp
      · cases hemp : mn.mentionees.isEmpty
        · simp only [Bool.false_eq_true, if_false, if_neg, hemp, List.any_eq_true,
            decide_eq_true_eq]
          constructor
          · rintro ⟨m, hm, hid⟩
            exact Or.inr ⟨mn, rfl, m, hm, hid⟩
          · rintro (h | ⟨mn', hmn', m, hm, hid⟩)
            · simp at h
            · cases Option.some.inj hmn'
              exact ⟨m, hm, hid⟩
        · have : mn.mentionees = [] := List.isEmpty_iff.mp hemp
          simp [this]
    · simp [hp]

/-- C4 witness: a direct-conversation event is admitted, and the
group-event characterization holds at a concrete group event carrying a
bot mention. -/
theorem C4_admission_witness :
    (should_process_message "B" ⟨⟨"user", "U"⟩, ⟨"hi".data, none, none⟩⟩ "hi".data = true) ∧
    (should_process_message "B"
        ⟨⟨"group", "U"⟩, ⟨"hi".data, some ⟨[⟨"B", 0, 3⟩]⟩, none⟩⟩ "hi".data = true ↔
      ("/".data).isPrefixOf "hi".data = true ∨
      ∃ mn, (some (Mention.mk [⟨"B", 0, 3⟩]) : Option Mention) = some mn ∧
        ∃ m ∈ mn.mentionees, m.user_id = "B") :=
  ⟨(C4_admission "B" ⟨⟨"user", "U"⟩, ⟨"hi".data, none, none⟩⟩ "hi".data).1 rfl,
    (C4_admission "B" ⟨⟨"group", "U"⟩, ⟨"hi".data, some ⟨[⟨"B", 0, 3⟩]⟩, none⟩⟩
      "hi".data).2 (Or.inl rfl)⟩

/-! ### Batch ingestion (C7) -/

/-- C7: evaluation of the ingestion loop at the failing batch.  The
well-formed first event is cached, the malformed second event (a text
message with no `id` key) raises inside the single `try` that wraps the
whole loop, and the well-formed third event is therefore never cached —
the claim's guarantee for events positioned after the malformed one fails
on the code. -/
theorem C7_malformed_event_aborts_rest_of_batch :
    (auto_cache_text_messages ([] : List (String × Txt))
      [⟨some "message", some ⟨some "text", some "1", some "a".data⟩⟩,
        ⟨some "message", some ⟨some "text", none, some "x".data⟩⟩,
        ⟨some "message", some ⟨some "text", some "2", some "b".data⟩⟩]
      = [("1", "a".data)]) ∧
    cache_step_ok ⟨some "message", some ⟨some "text", none, some "x".data⟩⟩ = false ∧
    cache_step_ok ⟨some "message", some ⟨some "text", some "2", some "b".data⟩⟩ = true ∧
    "2" ∉ cacheKeys (auto_cache_text_messages ([] : List (String × Txt))
      [⟨some "message", some ⟨some "text", some "1", some "a".data⟩⟩,
        ⟨some "message", some ⟨some "text", none, some "x".data⟩⟩,
        ⟨some "message", some ⟨some "text", some "2", some "b".data⟩⟩]) := by
  refine ⟨by decide, by decide, by decide, by decide⟩

/-! ### Quote merge structure (C8) -/

/-- C8: whenever quote resolution yields (truthy) prior text, the text
handed to the command dispatch is the synthesized compound turn with the
resolver's prior text first and the user's mention-stripped new text
second, both preserved verbatim. -/
theorem C8_quote_merge_structure : ∀ (botId : String) (cache : List (String × Txt))
    (e : Event) (r : Txt),
    get_replied_message_text cache e = some r → r ≠ [] →
    router_text botId cache e =
      "針對這段話回應：".data ++ r ++ "\n使用者補充說：".data ++
        remove_bot_mention botId e.message.mention (trimChars e.message.text) := by
  intro botId cache e r hr hne
  unfold router_text
  rw [hr]
  simp [hne]

/-- C8 witness: the spec's end-to-end quoting scenario — the parent
`weather today?` is cached, the child quotes it with new text
`and tomorrow?`, and the routed text is the merged prompt containing both
verbatim. -/
theorem C8_quote_merge_structure_witness :
    (get_replied_message_text [("p", "weather today?".data)]
      ⟨⟨"user", "U"⟩, ⟨"and tomorrow?".data, none, some ⟨some "p", none⟩⟩⟩ =
        some "weather today?".data) ∧
    router_text "B" [("p", "weather today?".data)]
      ⟨⟨"user", "U"⟩, ⟨"and tomorrow?".data, none, some ⟨some "p", none⟩⟩⟩ =
      "針對這段話回應：".data ++ "weather today?".data ++ "\n使用者補充說：".data ++
        remove_bot_mention "B" none (trimChars "and tomorrow?".data) :=
  ⟨by decide,
    C8_quote_merge_structure "B" [("p", "weather today?".data)]
      ⟨⟨"user", "U"⟩, ⟨"and tomorrow?".data, none, some ⟨some "p", none⟩⟩⟩
      "weather today?".data (by decide) (by decide)⟩

/-! ### Non-admitted events (C9) -/

/-- C9: a non-admitted text event gets exactly one reply, the fixed
not-registered notice `尚未註冊`, and no further processing — no memory
operation is performed and no collaborator result influences the reply. -/
theorem C9_not_admitted_fixed_notice : ∀ (env : Env) (botId : String)
    (cache : List (String × Txt)) (e : Event),
    should_process_message botId e (trimChars e.message.text) = false →
    handle_text_message env botId cache e = ⟨[], .text "尚未註冊".data⟩ := by
  intro env botId cache e h
  unfold handle_text_message
  simp [h]

/-- C9 witness: a group message with neither a `/` command prefix nor a
bot mention is not admitted and gets the fixed notice. -/
theorem C9_not_admitted_fixed_notice_witness :
    (should_process_message "B"
      ⟨⟨"group", "U"⟩, ⟨"hello".data, none, none⟩⟩ (trimChars "hello".data) = false) ∧
    handle_text_message envOk "B" []
      ⟨⟨"group", "U"⟩, ⟨"hello".data, none, none⟩⟩ = ⟨[], .text "尚未註冊".data⟩ :=
  ⟨by decide,
    C9_not_admitted_fixed_notice envOk "B" []
      ⟨⟨"group", "U"⟩, ⟨"hello".data, none, none⟩⟩ (by decide)⟩

/-! ### Error-path memory policy (C10) -/

/-- C10: on a generic backend failure in the image or default-chat branch
the handler clears the user's entire conversational memory (the `remove`
operation precedes the error reply in the trace), while the
unregistered-user `KeyError` path of the image branch performs no clear,
leaving the freshly appended user turn dangling in memory. -/
theorem C10_backend_failure_clears_memory : ∀ (env : Env) (text : Txt)
    (maxTurns : Nat) (st : MemState),
    (("/註冊".data).isPrefixOf text = false →
      ("/指令說明".data).isPrefixOf text = false →
      ("/系統訊息".data).isPrefixOf text = false →
      ("/清除".data).isPrefixOf text = false →
      ("/圖像".data).isPrefixOf text = true →
      (∀ e, env.registered = true →
        env.image_generations (trimChars (text.drop 3)) = .error e →
        dispatch env text =
          ([.append "user" (trimChars (text.drop 3)), .remove],
            .text (generic_error_msg e)) ∧
        (memApplyAll maxTurns st
          [MemOp.append "user" (trimChars (text.drop 3)), MemOp.remove]).turns = []) ∧
      (env.registered = false →
        dispatch env text =
          ([.append "user" (trimChars (text.drop 3))],
            .text "請先註冊 Token，格式為 /註冊 sk-xxxxx".data) ∧
        (memApplyAll maxTurns st [MemOp.append "user" (trimChars (text.drop 3))]).turns =
          trimExchanges maxTurns (st.turns ++ [("user", trimChars (text.drop 3))]))) ∧
    (("/註冊".data).isPrefixOf text = false →
      ("/指令說明".data).isPrefixOf text = false →
      ("/系統訊息".data).isPrefixOf text = false →
      ("/清除".data).isPrefixOf text = false →
      ("/圖像".data).isPrefixOf text = false →
      ∀ e, env.registered = true → env.get_url_from_text text = none →
        env.chat_completions text = .error e →
        dispatch env text = ([.append "user" text, .remove], .text (generic_error_msg e)) ∧
        (memApplyAll maxTurns st [MemOp.append "user" text, MemOp.remove]).turns = []) := by
  intro env text maxTurns st
  constructor
  · intro h1 h2 h3 h4 h5
    constructor
    · intro e hreg herr
      constructor
      · simp [dispatch, h1, h2, h3, h4, h5, hreg, herr]
      · simp [memApplyAll, memApply]
    · intro hreg
      constructor
      · simp [dispatch, h1, h2, h3, h4, h5, hreg]
      · simp [memApplyAll, memApply]
  · intro h1 h2 h3 h4 h5 e hreg hurl hchat
    constructor
    · simp [dispatch, h1, h2, h3, h4, h5, hreg, hurl, hchat]
    · simp [memApplyAll, memApply]

/-- C10 witness: concrete traces — a failing image generation for a
registered user clears memory; an unregistered user's image command
appends the user turn and performs no clear; a failing default chat for a
registered user clears memory. -/
theorem C10_backend_failure_clears_memory_witness :
    (dispatch envFail "/圖像 cat".data =
      ([.append "user" (trimChars ("/圖像 cat".data.drop 3)), .remove],
        .text (generic_error_msg "boom".data)) ∧
      (memApplyAll 2 ⟨"s".data, [("user", "hi".data)]⟩
        [MemOp.append "user" (trimChars ("/圖像 cat".data.drop 3)), MemOp.remove]).turns = []) ∧
    (dispatch envUnreg "/圖像 cat".data =
      ([.append "user" (trimChars ("/圖像 cat".data.drop 3))],
        .text "請先註冊 Token，格式為 /註冊 sk-xxxxx".data) ∧
      (memApplyAll 2 ⟨"s".data, [("user", "hi".data)]⟩
        [MemOp.append "user" (trimChars ("/圖像 cat".data.drop 3))]).turns =
        trimExchanges 2 ([("user", "hi".data)] ++
          [("user", trimChars ("/圖像 cat".data.drop 3))])) ∧
    (dispatch envFail "ask".data =
      ([.append "user" "ask".data, .remove], .text (generic_error_msg "boom".data)) ∧
      (memApplyAll 2 ⟨"s".data, [("user", "hi".data)]⟩
        [MemOp.append "user" "ask".data, MemOp.remove]).turns = []) :=
  ⟨((C10_backend_failure_clears_memory envFail "/圖像 cat".data 2
      ⟨"s".data, [("user", "hi".data)]⟩).1 (by decide) (by decide) (by decide) (by decide)
      (by decide)).1 "boom".data rfl rfl,
    ((C10_backend_failure_clears_memory envUnreg "/圖像 cat".data 2
      ⟨"s".data, [("user", "hi".data)]⟩).1 (by decide) (by decide) (by decide) (by decide)
      (by decide)).2 rfl,
    (C10_backend_failure_clears_memory envFail "ask".data 2
      ⟨"s".data, [("user", "hi".data)]⟩).2 (by decide) (by decide) (by decide) (by decide)
      (by decide) "boom".data rfl rfl rfl⟩

/-! ### Router memory-turn contract (C6) -/

/-- C6 (amended): per-branch memory effects of the command dispatch.  The
registration, help and system-message branches append no conversational
turns and leave the turns sequence unchanged; the clear branch appends no
turns but resets the sequence to empty; the image branch appends exactly
one user turn first (before the registration lookup) and, on success,
exactly one assistant turn; the default branch appends nothing for an
unregistered user (the lookup precedes the append) and otherwise appends
exactly one user turn and, on success, exactly one turn with the
collaborator-returned role. -/
theorem C6_dispatch_turns_contract : ∀ (env : Env) (text : Txt)
    (maxTurns : Nat) (st : MemState),
    (("/註冊".data).isPrefixOf text = true →
      (dispatch env text).1 = [] ∧
      (memApplyAll maxTurns st (dispatch env text).1).turns = st.turns) ∧
    (("/註冊".data).isPrefixOf text = false →
      ("/指令說明".data).isPrefixOf text = true →
      (dispatch env text).1 = [] ∧
      (memApplyAll maxTurns st (dispatch env text).1).turns = st.turns) ∧
    (("/註冊".data).isPrefixOf text = false →
      ("/指令說明".data).isPrefixOf text = false →
      ("/系統訊息".data).isPrefixOf text = true →
      (dispatch env text).1 = [.changeSystem (trimChars (text.drop 5))] ∧
      (memApplyAll maxTurns st (dispatch env text).1).turns = st.turns) ∧
    (("/註冊".data).isPrefixOf text = false →
      ("/指令說明".data).isPrefixOf text = false →
      ("/系統訊息".data).isPrefixOf text = false →
      ("/清除".data).isPrefixOf text = true →
      (dispatch env text).1 = [.remove] ∧
      (memApplyAll maxTurns st (dispatch env text).1).turns = []) ∧
    (("/註冊".data).isPrefixOf text = false →
      ("/指令說明".data).isPrefixOf text = false →
      ("/系統訊息".data).isPrefixOf text = false →
      ("/清除".data).isPrefixOf text = false →
      ("/圖像".data).isPrefixOf text = true →
      (env.registered = false →
        (dispatch env text).1 = [.append "user" (trimChars (text.drop 3))]) ∧
      (∀ url, env.registered = true →
        env.image_generations (trimChars (text.drop 3)) = .ok url →
        (dispatch env text).1 =
          [.append "user" (trimChars (text.drop 3)), .append "assistant" url]) ∧
      (∀ e, env.registered = true →
        env.image_generations (trimChars (text.drop 3)) = .error e →
        (dispatch env text).1 = [.append "user" (trimChars (text.drop 3)), .remove])) ∧
    (("/註冊".data).isPrefixOf text = false →
      ("/指令說明".data).isPrefixOf text = false →
      ("/系統訊息".data).isPrefixOf text = false →
      ("/清除".data).isPrefixOf text = false →
      ("/圖像".data).isPrefixOf text = false →
      (env.registered = false → (dispatch env text).1 = []) ∧
      (∀ u, env.registered = true → env.get_url_from_text text = some u →
        (dispatch env text).1 = [.append "user" text, .remove]) ∧
      (∀ role content, env.registered = true → env.get_url_from_text text = none →
        env.chat_completions text = .ok (role, content) →
        (dispatch env text).1 = [.append "user" text, .append role content]) ∧
      (∀ e, env.registered = true → env.get_url_from_text text = none →
        env.chat_completions text = .error e →
        (dispatch env text).1 = [.append "user" text, .remove])) := by
  intro env text maxTurns st
  refine ⟨?_, ?_, ?_, ?_, ?_, ?_⟩
  · intro h1
    have hops : (dispatch env text).1 = [] := by
      by_cases hc : env.check_token_valid (trimChars (text.drop 3)) = true <;>
        simp [dispatch, h1, hc]
    exact ⟨hops, by rw [hops]; rfl⟩
  · intro h1 h2
    have hops : (dispatch env text).1 = [] := by
      simp [dispatch, h1, h2]
    exact ⟨hops, by rw [hops]; rfl⟩
  · intro h1 h2 h3
    have hops : (dispatch env text).1 = [.changeSystem (trimChars (text.drop 5))] := by
      simp [dispatch, h1, h2, h3]
    exact ⟨hops, by rw [hops]; rfl⟩
  · intro h1 h2 h3 h4
    have hops : (dispatch env text).1 = [.remove] := by
      simp [dispatch, h1, h2, h3, h4]
    exact ⟨hops, by rw [hops]; rfl⟩
  · intro h1 h2 h3 h4 h5
    refine ⟨?_, ?_, ?_⟩
    · intro hreg
      simp [dispatch, h1, h2, h3, h4, h5, hreg]
    · intro url hreg hok
      simp [dispatch, h1, h2, h3, h4, h5, hreg, hok]
    · intro e hreg herr
      simp [dispatch, h1, h2, h3, h4, h5, hreg, herr]
  · intro h1 h2 h3 h4 h5
    refine ⟨?_, ?_, ?_, ?_⟩
    · intro hreg
      simp [dispatch, h1, h2, h3, h4, h5, hreg]
    · intro u hreg hurl
      simp [dispatch, h1, h2, h3, h4, h5, hreg, hurl]
    · intro role content hreg hurl hok
      simp [dispatch, h1, h2, h3, h4, h5, hreg, hurl, hok]
    · intro e hreg hurl herr
      simp [dispatch, h1, h2, h3, h4, h5, hreg, hurl, herr]

/-- C6 witness: concrete traces for a registration command (no memory
operations, turns unchanged), a clear command (turns reset), a successful
image command (one user turn then one assistant turn) and a successful
default chat (one user turn then one assistant turn). -/
theorem C6_dispatch_turns_contract_witness :
    ((dispatch envOk "/註冊 sk-1".data).1 = [] ∧
      (memApplyAll 2 ⟨"s".data, [("user", "hi".data)]⟩
        (dispatch envOk "/註冊 sk-1".data).1).turns = [("user", "hi".data)]) ∧
    ((dispatch envOk "/清除".data).1 = [.remove] ∧
      (memApplyAll 2 ⟨"s".data, [("user", "hi".data)]⟩
        (dispatch envOk "/清除".data).1).turns = []) ∧
    ((dispatch envOk "/圖像 cat".data).1 =
      [.append "user" (trimChars ("/圖像 cat".data.drop 3)),
        .append "assistant" "http://img".data]) ∧
    ((dispatch envOk "ask".data).1 =
      [.append "user" "ask".data, .append "assistant" "ok".data]) :=
  ⟨(C6_dispatch_turns_contract envOk "/註冊 sk-1".data 2
      ⟨"s".data, [("user", "hi".data)]⟩).1 (by decide),
    (C6_dispatch_turns_contract envOk "/清除".data 2
      ⟨"s".data, [("user", "hi".data)]⟩).2.2.2.1 (by decide) (by decide) (by decide)
      (by decide),
    ((C6_dispatch_turns_contract envOk "/圖像 cat".data 2
      ⟨"s".data, [("user", "hi".data)]⟩).2.2.2.2.1 (by decide) (by decide) (by decide)
      (by decide) (by decide)).2.1 "http://img".data rfl rfl,
    ((C6_dispatch_turns_contract envOk "ask".data 2
      ⟨"s".data, [("user", "hi".data)]⟩).2.2.2.2.2 (by decide) (by decide) (by decide)
      (by decide) (by decide)).2.2.1 "assistant" "ok".data rfl rfl rfl⟩

/-- C6 counterexample: the claim as stated is false at two concrete
dispatches — the clear-command branch changes (empties) a non-empty turns
sequence, which the claim says is left unchanged, and a default-branch
message from an unregistered user appends no user turn at all, while the
claim says every non-exempted branch appends exactly one. -/
theorem C6_counterexample :
    ((dispatch envOk "/清除".data).1 = [MemOp.remove]) ∧
    (memApplyAll 2 ⟨"s".data, [("user", "hi".data)]⟩
      (dispatch envOk "/清除".data).1).turns = [] ∧
    ¬ ((memApplyAll 2 ⟨"s".data, [("user", "hi".data)]⟩
      (dispatch envOk "/清除".data).1).turns = [("user", "hi".data)]) ∧
    (dispatch envUnreg "hello".data).1 = [] := by
  refine ⟨by decide, by decide, by decide, by decide⟩

/-! ### Mention stripping (C5) -/

theorem spanDisj_symm : ∀ {a b : Mentionee}, spanDisj a b → spanDisj b a :=
  fun h => h.symm

/-! keepFrom toolkit -/

theorem keepFrom_append (p : Nat → Bool) :
    ∀ (a b : Txt) (n : Nat), keepFrom p (a ++ b) n = keepFrom p a n ++ keepFrom p b (n + a.length)
  | [], b, n => by simp [keepFrom]
  | c :: cs, b, n => by
    have h : n + 1 + cs.length = n + (cs.length + 1) := by omega
    simp only [List.cons_append, keepFrom, List.append_eq,
      keepFrom_append p cs b (n + 1), List.length_cons, h]
    split <;> rfl

theorem keepFrom_all_true (p : Nat → Bool) :
    ∀ (t : Txt) (n : Nat), (∀ j, n ≤ j → j < n + t.length → p j = true) →
      keepFrom p t n = t
  | [], _, _ => rfl
  | c :: cs, n, h => by
    have hn : p n = true := h n (Nat.le_refl n) (by simp only [List.length_cons]; omega)
    simp only [keepFrom, hn, if_true]
    rw [keepFrom_all_true p cs (n + 1)]
    intro j h1 h2
    exact h j (by omega) (by simp only [List.length_cons]; omega)

theorem keepFrom_all_false (p : Nat → Bool) :
    ∀ (t : Txt) (n : Nat), (∀ j, n ≤ j → j < n + t.length → p j = false) →
      keepFrom p t n = []
  | [], _, _ => rfl
  | c :: cs, n, h => by
    have hn : p n = false := h n (Nat.le_refl n) (by simp only [List.length_cons]; omega)
    simp only [keepFrom, hn, Bool.false_eq_true, if_false]
    rw [keepFrom_all_false p cs (n + 1)]
    intro j h1 h2
    exact h j (by omega) (by simp only [List.length_cons]; omega)

theorem keepFrom_congr (p q : Nat → Bool) :
    ∀ (t : Txt) (n : Nat), (∀ j, n ≤ j → j < n + t.length → p j = q j) →
      keepFrom p t n = keepFrom q t n
  | [], _, _ => rfl
  | c :: cs, n, h => by
    have hn : p n = q n := h n (Nat.le_refl n) (by simp only [List.length_cons]; omega)
    have ih := keepFrom_congr p q cs (n + 1)
      (fun j h1 h2 => h j (by omega) (by simp only [List.length_cons]; omega))
    simp only [keepFrom, hn, ih]

/-! coveredBy basics -/

theorem coveredBy_nil (j : Nat) : coveredBy [] j = false := rfl

theorem coveredBy_cons (m : Mentionee) (ms : List Mentionee) (j : Nat) :
    coveredBy (m :: ms) j =
      ((decide (m.index ≤ j) && decide (j < m.index + m.length)) || coveredBy ms j) := by
  simp [coveredBy]

theorem coveredBy_false_of_below (ms : List Mentionee) (i : Nat)
    (hbelow : ∀ m' ∈ ms, m'.index + m'.length ≤ i) :
    ∀ j, i ≤ j → coveredBy ms j = false := by
  intro j hj
  rw [coveredBy, List.any_eq_false]
  intro m' hm'
  have := hbelow m' hm'
  simp only [Bool.and_eq_true, decide_eq_true_eq, not_and]
  intro _
  omega

/-! main lemma -/

theorem foldl_removeSpan_eq_keepIdx :
    ∀ (ms : List Mentionee) (t : Txt),
      ms.Pairwise (fun a b => b.index ≤ a.index) →
      ms.Pairwise spanDisj →
      ms.foldl (fun t m => removeSpan t m.index m.length) t
        = keepIdx (fun j => !(coveredBy ms j)) t
  | [], t, _, _ => by
    rw [List.foldl_nil, keepIdx, keepFrom_all_true]
    intro j _ _
    simp [coveredBy_nil]
  | m :: rest, t, hsort, hdisj => by
    rw [List.pairwise_cons] at hsort hdisj
    obtain ⟨hm_le, hrest_sort⟩ := hsort
    obtain ⟨hm_disj, hrest_disj⟩ := hdisj
    rw [List.foldl_cons]
    rcases Nat.eq_zero_or_pos m.length with hl0 | hlpos
    · -- zero-length span: removal is a no-op and the span covers nothing
      have hnoop : removeSpan t m.index m.length = t := by
        rw [removeSpan, hl0, Nat.add_zero, List.take_append_drop]
      rw [hnoop, foldl_removeSpan_eq_keepIdx rest t hrest_sort hrest_disj,
        keepIdx, keepIdx]
      apply keepFrom_congr
      intro j _ _
      show (!coveredBy rest j) = (!coveredBy (m :: rest) j)
      rw [coveredBy_cons]
      have hcond : (decide (m.index ≤ j) && decide (j < m.index + m.length)) = false := by
        rw [hl0, Nat.add_zero]
        by_cases h : m.index ≤ j
        · simp [Nat.not_lt.mpr h]
        · simp [h]
      rw [hcond, Bool.false_or]
    · -- positive length: every span of `rest` ends at or before m.index
      have hbelow : ∀ m' ∈ rest, m'.index + m'.length ≤ m.index := by
        intro m' hm'
        rcases hm_disj m' hm' with h | h
        · exact absurd h (by have := hm_le m' hm'; omega)
        · exact h
      rw [foldl_removeSpan_eq_keepIdx rest _ hrest_sort hrest_disj]
      rw [removeSpan, keepIdx, keepFrom_append]
      simp only [Nat.zero_add]
      rcases le_or_lt t.length m.index with hout | hin
      · -- the span starts at or beyond the end of the text
        rw [List.take_of_length_le hout, List.drop_eq_nil_of_le (by omega)]
        simp only [keepFrom, List.append_nil]
        rw [keepIdx]
        apply keepFrom_congr
        intro j _ hj
        show (!coveredBy rest j) = (!coveredBy (m :: rest) j)
        rw [coveredBy_cons]
        have hcond : (decide (m.index ≤ j) && decide (j < m.index + m.length)) = false := by
          have : ¬ m.index ≤ j := by omega
          simp [this]
        rw [hcond, Bool.false_or]
      · -- the span starts inside the text
        have htklen : (t.take m.index).length = m.index := by
          rw [List.length_take]
          omega
        rw [htklen]
        have htail : keepFrom (fun j => !coveredBy rest j)
            (t.drop (m.index + m.length)) m.index = t.drop (m.index + m.length) := by
          apply keepFrom_all_true
          intro j hj _
          show (!coveredBy rest j) = true
          rw [coveredBy_false_of_below rest m.index hbelow j hj]
          rfl
        rw [htail, keepIdx]
        have hsplit : t = t.take m.index ++ ((t.drop m.index).take m.length
            ++ t.drop (m.index + m.length)) := by
          conv_lhs => rw [← List.take_append_drop m.index t]
          congr 1
          conv_lhs => rw [← List.take_append_drop m.length (t.drop m.index)]
          rw [List.drop_drop]
        conv_rhs => rw [hsplit]
        rw [keepFrom_append, keepFrom_append, htklen]
        simp only [Nat.zero_add]
        have hmidlen : ((t.drop m.index).take m.length).length =
            min m.length (t.length - m.index) := by
          simp [List.length_take, List.length_drop]
        have hfst : keepFrom (fun j => !coveredBy (m :: rest) j) (t.take m.index) 0 =
            keepFrom (fun j => !coveredBy rest j) (t.take m.index) 0 := by
          apply keepFrom_congr
          intro j _ hj
          rw [Nat.zero_add, htklen] at hj
          show (!coveredBy (m :: rest) j) = (!coveredBy rest j)
          rw [coveredBy_cons]
          have hcond : (decide (m.index ≤ j) && decide (j < m.index + m.length)) = false := by
            have : ¬ m.index ≤ j := by omega
            simp [this]
          rw [hcond, Bool.false_or]
        have hmid : keepFrom (fun j => !coveredBy (m :: rest) j)
            ((t.drop m.index).take m.length) m.index = [] := by
          apply keepFrom_all_false
          intro j hj1 hj2
          rw [hmidlen] at hj2
          show (!coveredBy (m :: rest) j) = false
          rw [coveredBy_cons]
          have hcond : (decide (m.index ≤ j) && decide (j < m.index + m.length)) = true := by
            simp only [Bool.and_eq_true, decide_eq_true_eq]
            omega
          rw [hcond, Bool.true_or]
          rfl
        have hlast : keepFrom (fun j => !coveredBy (m :: rest) j)
            (t.drop (m.index + m.length)) (m.index + ((t.drop m.index).take m.length).length)
            = t.drop (m.index + m.length) := by
          apply keepFrom_all_true
          intro j hj hj2
          rw [hmidlen] at hj
          rw [hmidlen, List.length_drop] at hj2
          show (!coveredBy (m :: rest) j) = true
          rw [coveredBy_cons]
          have hcond : (decide (m.index ≤ j) && decide (j < m.index + m.length)) = false := by
            have : ¬ j < m.index + m.length := by omega
            simp [this]
          rw [hcond, Bool.false_or,
            coveredBy_false_of_below rest m.index hbelow j (by omega)]
          rfl
        rw [hfst, hmid, hlast, List.nil_append]

/-! assembly -/

theorem mentionSortLe_trans : ∀ (a b c : Mentionee),
    mentionSortLe a b → mentionSortLe b c → mentionSortLe a c := by
  intro a b c h1 h2
  simp only [mentionSortLe, decide_eq_true_eq] at h1 h2 ⊢
  omega

theorem mentionSortLe_total : ∀ (a b : Mentionee),
    mentionSortLe a b || mentionSortLe b a := by
  intro a b
  simp only [mentionSortLe, Bool.or_eq_true, decide_eq_true_eq]
  omega

theorem any_eq_of_perm {l₁ l₂ : List Mentionee} (h : l₁.Perm l₂) (p : Mentionee → Bool) :
    l₁.any p = l₂.any p := by
  cases h2 : l₂.any p
  · rw [List.any_eq_false] at h2 ⊢
    intro x hx
    exact h2 x (h.mem_iff.mp hx)
  · rw [List.any_eq_true] at h2 ⊢
    obtain ⟨x, hx, hp⟩ := h2
    exact ⟨x, h.mem_iff.mpr hx, hp⟩

theorem foldl_if_eq_foldl_filter (botId : String) :
    ∀ (l : List Mentionee) (t : Txt),
      l.foldl (fun t m => if m.user_id = botId then removeSpan t m.index m.length else t) t
        = (l.filter (fun m => decide (m.user_id = botId))).foldl
            (fun t m => removeSpan t m.index m.length) t
  | [], _ => rfl
  | a :: l, t => by
    by_cases h : a.user_id = botId
    · rw [List.foldl_cons, if_pos h, List.filter_cons, if_pos (by simp [h]),
        List.foldl_cons]
      exact foldl_if_eq_foldl_filter botId l _
    · rw [List.foldl_cons, if_neg h, List.filter_cons, if_neg (by simp [h])]
      exact foldl_if_eq_foldl_filter botId l t

theorem remove_bot_mention_eq (botId : String) (mn : Mention) (text : Txt)
    (hne : mn.mentionees ≠ []) :
    remove_bot_mention botId (some mn) text =
      trimChars ((mn.mentionees.mergeSort mentionSortLe).foldl
        (fun t m => if m.user_id = botId then removeSpan t m.index m.length else t) text) := by
  have hemp : mn.mentionees.isEmpty = false := by
    cases hmm : mn.mentionees
    · exact absurd hmm hne
    · rfl
  simp only [remove_bot_mention, hemp, Bool.false_eq_true, if_false]

theorem keepFrom_kept_span (p : Nat → Bool) (t : Txt) (i l : Nat)
    (h : ∀ j, i ≤ j → j < i + l → p j = true) :
    ∃ pre post, keepIdx p t = pre ++ (t.drop i).take l ++ post := by
  rcases le_or_lt t.length i with hout | hin
  · refine ⟨keepIdx p t, [], ?_⟩
    rw [List.drop_eq_nil_of_le hout]
    simp
  · have hsplit : t = t.take i ++ ((t.drop i).take l ++ t.drop (i + l)) := by
      conv_lhs => rw [← List.take_append_drop i t]
      congr 1
      conv_lhs => rw [← List.take_append_drop l (t.drop i)]
      rw [List.drop_drop]
    have htklen : (t.take i).length = i := by
      rw [List.length_take]
      omega
    refine ⟨keepFrom p (t.take i) 0,
      keepFrom p (t.drop (i + l)) (i + ((t.drop i).take l).length), ?_⟩
    rw [keepIdx]
    conv_lhs => rw [hsplit]
    rw [keepFrom_append, keepFrom_append, htklen]
    simp only [Nat.zero_add]
    rw [keepFrom_all_true p ((t.drop i).take l) i
      (fun j hj1 hj2 => h j hj1 (by
        rw [List.length_take, List.length_drop] at hj2
        omega)),
      List.append_assoc]

/-- C5 (amended): when at least one mention annotation is present and the
bot's spans are pairwise disjoint, mention stripping removes exactly the
character positions covered by spans whose referenced identity equals the
bot's own identity (descending-offset processing keeps every recorded
offset valid), preserves every span disjoint from the bot's spans as a
contiguous verbatim segment, and trims the result.  With no mention (or
an empty mentionee list) the text is returned unchanged — in particular
not trimmed.  Both restrictions are forced by the counterexample: with
zero annotations the code skips the trim, and with overlapping bot spans
the sequential removals delete more than the covered positions. -/
theorem C5_mention_stripping : ∀ (botId : String) (mn : Mention) (text : Txt),
    (remove_bot_mention botId none text = text) ∧
    (mn.mentionees = [] → remove_bot_mention botId (some mn) text = text) ∧
    ((mn.mentionees.filter (fun m => decide (m.user_id = botId))).Pairwise spanDisj →
      mn.mentionees ≠ [] →
      remove_bot_mention botId (some mn) text =
        trimChars (keepIdx (fun j => !(coversBot botId mn.mentionees j)) text)) ∧
    (∀ m, m ∈ mn.mentionees → m.user_id ≠ botId →
      (∀ b ∈ mn.mentionees.filter (fun m' => decide (m'.user_id = botId)), spanDisj m b) →
      ∃ pre post, keepIdx (fun j => !(coversBot botId mn.mentionees j)) text =
        pre ++ ((text.drop m.index).take m.length) ++ post) := by
  intro botId mn text
  refine ⟨rfl, ?_, ?_, ?_⟩
  · intro h
    simp [remove_bot_mention, h]
  · intro hdisj hne
    have hsorted : (mn.mentionees.mergeSort mentionSortLe).Pairwise
        (fun a b => b.index ≤ a.index) := by
      have hs : (mn.mentionees.mergeSort mentionSortLe).Pairwise
          (fun a b => mentionSortLe a b = true) :=
        List.sorted_mergeSort mentionSortLe_trans mentionSortLe_total mn.mentionees
      exact hs.imp (fun hab => by simpa [mentionSortLe] using hab)
    have hperm : (mn.mentionees.mergeSort mentionSortLe).Perm mn.mentionees :=
      List.mergeSort_perm mn.mentionees mentionSortLe
    have hpermf : ((mn.mentionees.mergeSort mentionSortLe).filter
        (fun m => decide (m.user_id = botId))).Perm
          (mn.mentionees.filter (fun m => decide (m.user_id = botId))) :=
      hperm.filter _
    have hsortedf : ((mn.mentionees.mergeSort mentionSortLe).filter
        (fun m => decide (m.user_id = botId))).Pairwise (fun a b => b.index ≤ a.index) :=
      List.Pairwise.sublist (List.filter_sublist _) hsorted
    have hdisjf : ((mn.mentionees.mergeSort mentionSortLe).filter
        (fun m => decide (m.user_id = botId))).Pairwise spanDisj :=
      (hpermf.pairwise_iff spanDisj_symm).mpr hdisj
    rw [remove_bot_mention_eq botId mn text hne,
      foldl_if_eq_foldl_filter botId,
      foldl_removeSpan_eq_keepIdx _ text hsortedf hdisjf]
    congr 1
    rw [keepIdx, keepIdx]
    apply keepFrom_congr
    intro j _ _
    show (!coveredBy _ j) = (!coversBot botId mn.mentionees j)
    rw [coversBot, coveredBy, coveredBy, any_eq_of_perm hpermf]
  · intro m hm _ hdisjm
    apply keepFrom_kept_span
    intro j hj1 hj2
    show (!coversBot botId mn.mentionees j) = true
    have hcov : coveredBy (mn.mentionees.filter
        (fun m' => decide (m'.user_id = botId))) j = false := by
      rw [coveredBy, List.any_eq_false]
      intro b hb
      have hd := hdisjm b hb
      simp only [Bool.and_eq_true, decide_eq_true_eq, not_and]
      intro hble
      rcases hd with hd | hd <;> omega
    rw [coversBot, hcov]
    rfl

unseal List.merge List.mergeSort in
/-- C5 counterexample: the claim as stated is false in two independent
ways.  (i) Zero mention annotations: the code returns `" x "` unchanged,
while the claim (remove the zero bot spans, then trim) requires `"x"`.
(ii) Overlapping bot spans: on `"XabY"` with two identical bot
annotations covering positions `[1, 3)`, removing exactly the covered
positions yields `"XY"`, but the code removes the recorded span twice —
the second removal, applied after the first has already shifted the
text, also deletes `"Y"`, leaving `"X"`.  So the claimed "removes
exactly the spans whose referenced identity equals the bot's own
identity" fails for overlapping annotations. -/
theorem C5_counterexample :
    (remove_bot_mention "B" none " x ".data = " x ".data ∧
      trimChars (keepIdx (fun j => !(coversBot "B" [] j)) " x ".data) = "x".data ∧
      remove_bot_mention "B" none " x ".data ≠
        trimChars (keepIdx (fun j => !(coversBot "B" [] j)) " x ".data)) ∧
    (remove_bot_mention "B" (some ⟨[⟨"B", 1, 2⟩, ⟨"B", 1, 2⟩]⟩) "XabY".data = "X".data ∧
      trimChars (keepIdx (fun j => !(coversBot "B" [⟨"B", 1, 2⟩, ⟨"B", 1, 2⟩] j))
        "XabY".data) = "XY".data ∧
      remove_bot_mention "B" (some ⟨[⟨"B", 1, 2⟩, ⟨"B", 1, 2⟩]⟩) "XabY".data ≠
        trimChars (keepIdx (fun j => !(coversBot "B" [⟨"B", 1, 2⟩, ⟨"B", 1, 2⟩] j))
          "XabY".data)) :=
  ⟨⟨by decide, by decide, by decide⟩, by decide, by decide, by decide⟩

/-- C5 witness: the spec's own example — on
`"hello @bot world @carol"` with a bot span `[6, 11)` and an other-identity
span `[17, 23)`, stripping yields `"hello world @carol"`, equals the
keep-uncovered-positions characterization, and the `@carol` span survives
as a contiguous verbatim segment. -/
theorem C5_mention_stripping_witness :
    (remove_bot_mention "B" (some ⟨[⟨"B", 6, 5⟩, ⟨"C", 17, 6⟩]⟩)
        "hello @bot world @carol".data =
      trimChars (keepIdx (fun j => !(coversBot "B" [⟨"B", 6, 5⟩, ⟨"C", 17, 6⟩] j))
        "hello @bot world @carol".data)) ∧
    (remove_bot_mention "B" (some ⟨[⟨"B", 6, 5⟩, ⟨"C", 17, 6⟩]⟩)
        "hello @bot world @carol".data = "hello world @carol".data) ∧
    (∃ pre post, keepIdx (fun j => !(coversBot "B" [⟨"B", 6, 5⟩, ⟨"C", 17, 6⟩] j))
        "hello @bot world @carol".data =
      pre ++ (("hello @bot world @carol".data.drop 17).take 6) ++ post) :=
  ⟨(C5_mention_stripping "B" ⟨[⟨"B", 6, 5⟩, ⟨"C", 17, 6⟩]⟩
      "hello @bot world @carol".data).2.2.1 (by decide) (by decide),
    ((C5_mention_stripping "B" ⟨[⟨"B", 6, 5⟩, ⟨"C", 17, 6⟩]⟩
      "hello @bot world @carol".data).2.2.1 (by decide) (by decide)).trans (by decide),
    (C5_mention_stripping "B" ⟨[⟨"B", 6, 5⟩, ⟨"C", 17, 6⟩]⟩
      "hello @bot world @carol".data).2.2.2 ⟨"C", 17, 6⟩ (by decide) (by decide)
      (by decide)⟩
